import Mathlib

/-!
Verification of the TNvZA_Map KML loader and time-indexed animation layer
(src/KmlLoader.js) against its natural-language specification.

The JavaScript source is shallowly embedded: pure functions become Lean
functions on `List Char` / `String` / `Int` / `ℚ`; JavaScript Date values are
modelled at minute granularity (the code always zeroes seconds and
milliseconds); the mutable Leaflet layer groups become an explicit record of
emitted layers; regular-expression searches are modelled by position-by-position
matchers that implement the leftmost-match discipline of `String.prototype.match`.
-/

set_option maxHeartbeats 1000000

namespace TNvZAMap

/-! ## Dates

A JavaScript `Date` at minute granularity: `day` counts whole calendar days
from a fixed origin, `minute` is the minute within the day. The loader only
ever builds dates via `setHours(h, m, 0, 0)` on copies of `BASE_DATE`, so this
granularity is exact. -/

structure DateTime where
  day : Nat
  minute : Nat
deriving DecidableEq

/-- Day index of April 13, 2011 (the fixed calendar date of `BASE_DATE`);
the concrete value is irrelevant, only that it is one fixed constant. -/
def baseDay : Nat := 15077

/-- `const BASE_DATE = new Date(2011, 3, 13, 6, 0, 0, 0)` : April 13, 2011, 6:00 AM. -/
def BASE_DATE : DateTime := { day := baseDay, minute := 6 * 60 }

/-- `date.setHours(h, m, 0, 0)` : keeps the calendar day of `d` and replaces the
time of day; JavaScript normalizes an overflowing hour count into extra days. -/
def setHours (d : DateTime) (h m : Nat) : DateTime :=
  { day := d.day + (h * 60 + m) / 1440, minute := (h * 60 + m) % 1440 }

/-- `Date.prototype.getTime` at minute granularity: the absolute minute count. -/
def DateTime.getTime (d : DateTime) : Int :=
  (d.day : Int) * 1440 + (d.minute : Int)

/-! ## Character-level string helpers (JavaScript built-ins) -/

/-- `String.prototype.trim` on a character list. -/
def trimCs (cs : List Char) : List Char :=
  ((cs.dropWhile Char.isWhitespace).reverse.dropWhile Char.isWhitespace).reverse

/-- `parseInt` on a list of decimal digits (as produced by the digit groups of
the time regular expression). -/
def digitsToNat (ds : List Char) : Nat :=
  ds.foldl (fun acc c => acc * 10 + (c.toNat - 48)) 0

/-- Does `cs` start with `pat` (exact character comparison)? -/
def startsWithCs : List Char → List Char → Bool
  | [], _ => true
  | _ :: _, [] => false
  | p :: ps, c :: cs => p == c && startsWithCs ps cs

/-- `String.prototype.includes`: does `s` contain `pat` as a contiguous run? -/
def includesCs : List Char → List Char → Bool
  | [], pat => startsWithCs pat []
  | c :: rest, pat => startsWithCs pat (c :: rest) || includesCs rest pat

/-! ## parseTimeOnDate (src/KmlLoader.js lines 21-46)

The regular expression `(\d{1,2})(?::(\d{2}))?\s*(am|pm|a\.m\.|p\.m\.)?` is
matched against the lowercased, trimmed time string. Every part after the
leading digit group is optional, so the expression matches at the first digit
of the string and no backtracking into earlier groups can occur. -/

/-- The meridiem alternation `am|pm|a\.m\.|p\.m\.`, tried in the order written
in the source, at the start of `cs`, comparing case-insensitively
(the `i` flag). Returns the consumed characters and the remainder. -/
def matchMeridiemAt (cs : List Char) : Option (List Char × List Char) :=
  match cs with
  | c1 :: c2 :: rest =>
    if c1.toLower == 'a' && c2.toLower == 'm' then some ([c1, c2], rest)
    else if c1.toLower == 'p' && c2.toLower == 'm' then some ([c1, c2], rest)
    else
      match cs with
      | d1 :: d2 :: d3 :: d4 :: rest4 =>
        if d1.toLower == 'a' && d2 == '.' && d3.toLower == 'm' && d4 == '.' then
          some ([d1, d2, d3, d4], rest4)
        else if d1.toLower == 'p' && d2 == '.' && d3.toLower == 'm' && d4 == '.' then
          some ([d1, d2, d3, d4], rest4)
        else none
      | _ => none
  | _ => none

/-- The three capture groups of the time regular expression of
`parseTimeOnDate`: `timeMatch[1]` (hours), `timeMatch[2]` (minutes, optional),
`timeMatch[3]` (meridiem, optional). -/
structure TimeMatchR where
  hoursDigits : List Char
  minutesDigits : Option (List Char)
  period : Option (List Char)
deriving DecidableEq

/-- Attempt `(\d{1,2})(?::(\d{2}))?\s*(am|pm|a\.m\.|p\.m\.)?` at the start of
`cs`. `\d{1,2}` is greedy; the optional group `(?::(\d{2}))?` participates only
when a colon is followed by exactly two digits; `\s*` is greedy and is safe
because no meridiem alternative begins with whitespace. -/
def matchTimeAt (cs : List Char) : Option TimeMatchR :=
  match cs with
  | c1 :: rest1 =>
    if c1.isDigit then
      let ds2 :=
        match rest1 with
        | c2 :: r2 => if c2.isDigit then ([c1, c2], r2) else ([c1], rest1)
        | [] => ([c1], rest1)
      let ms2 :=
        match ds2.2 with
        | ':' :: m1 :: m2 :: r3 =>
          if m1.isDigit && m2.isDigit then (some [m1, m2], r3) else (none, ds2.2)
        | _ => (none, ds2.2)
      let rest4 := ms2.2.dropWhile Char.isWhitespace
      let per :=
        match matchMeridiemAt rest4 with
        | some pr => some pr.1
        | none => none
      some { hoursDigits := ds2.1, minutesDigits := ms2.1, period := per }
    else none
  | [] => none

/-- Leftmost match of the time regular expression: `String.prototype.match`
tries each start position in order; the expression requires a leading digit,
so the first digit position yields the match. -/
def findTimeMatch : List Char → Option TimeMatchR
  | [] => none
  | c :: rest =>
    match matchTimeAt (c :: rest) with
    | some m => some m
    | none => findTimeMatch rest

/-- The 12-to-24-hour conversion of `parseTimeOnDate` (lines 37-41):
`if (period.includes('pm') && hours !== 12) hours += 12;
else if (period.includes('am') && hours === 12) hours = 0;`
(`period` is already lowercase because the whole string was lowercased). -/
def convertTo24 (hours : Nat) (period : List Char) : Nat :=
  if includesCs period ['p', 'm'] ∧ hours ≠ 12 then hours + 12
  else if includesCs period ['a', 'm'] ∧ hours = 12 then 0
  else hours

/-- `parseTimeOnDate(timeStr, baseDate)` (lines 21-46). The argument is an
`Option` because callers pass the possibly-null result of
`extractTimeFromDescription`; `if (!timeStr) return null` rejects both `null`
and the empty string. -/
def parseTimeOnDate (timeStr? : Option String) (baseDate : DateTime) : Option DateTime :=
  match timeStr? with
  | none => none
  | some s =>
    if s = "" then none
    else
      let cs := trimCs (s.data.map Char.toLower)
      match findTimeMatch cs with
      | none => none
      | some m =>
        let hours := digitsToNat m.hoursDigits
        let minutes :=
          match m.minutesDigits with
          | some ds => digitsToNat ds
          | none => 0
        let period :=
          match m.period with
          | some p => p
          | none => ['a', 'm']
        some (setHours baseDate (convertTo24 hours period) minutes)

/-! ## extractTimeFromDescription (src/KmlLoader.js lines 49-70)

Five regular expressions are tried in the order of the `patterns` array; for
the first one that matches anywhere in the description, capture group 1 is
returned. All matchers below work on the original characters (the `i` flag
makes the comparison case-insensitive, but the captured text keeps its
original case, exactly as `description.match(pattern)[1]` does). -/

/-- `\d{1,2}:\d{2}` at the start of `cs`: greedy one-or-two digits, a colon,
exactly two digits. Returns the consumed characters and the remainder.
(When the greedy two-digit reading is followed by a non-colon, the regex
backtracks to one digit, but then the required colon position holds the second
digit, so the fallback can never succeed; requiring the colon right after the
greedily read digits is therefore equivalent.) -/
def matchHHMMAt (cs : List Char) : Option (List Char × List Char) :=
  match cs with
  | c1 :: rest1 =>
    if c1.isDigit then
      let ds2 :=
        match rest1 with
        | c2 :: r2 => if c2.isDigit then ([c1, c2], r2) else ([c1], rest1)
        | [] => ([c1], rest1)
      match ds2.2 with
      | ':' :: m1 :: m2 :: r3 =>
        if m1.isDigit && m2.isDigit then some (ds2.1 ++ [':', m1, m2], r3) else none
      | _ => none
    else none
  | [] => none

/-- The shared capture `\d{1,2}:\d{2}\s*(?:am|pm|a\.m\.|p\.m\.)` of patterns
1-3, at the start of `cs`; the capture includes the whitespace run before the
meridiem, as in the source. -/
def matchTimeMeridiemAt (cs : List Char) : Option (List Char) :=
  match matchHHMMAt cs with
  | some pr =>
    let sp := pr.2.takeWhile Char.isWhitespace
    let rest2 := pr.2.dropWhile Char.isWhitespace
    match matchMeridiemAt rest2 with
    | some mr => some (pr.1 ++ sp ++ mr.1)
    | none => none
  | none => none

/-- Pattern 1, `at\s+(\d{1,2}:\d{2}\s*(?:am|pm|a\.m\.|p\.m\.))`, at the start
of `cs` (case-insensitive; `\s+` needs at least one whitespace character). -/
def matchPat1At (cs : List Char) : Option (List Char) :=
  match cs with
  | a :: t :: rest =>
    if a.toLower == 'a' && t.toLower == 't' then
      match rest with
      | w :: _ =>
        if w.isWhitespace then matchTimeMeridiemAt (rest.dropWhile Char.isWhitespace)
        else none
      | [] => none
    else none
  | _ => none

/-- Pattern 2, `Time:\s*(\d{1,2}:\d{2}\s*(?:am|pm|a\.m\.|p\.m\.))`, at the
start of `cs` (case-insensitive). -/
def matchPat2At (cs : List Char) : Option (List Char) :=
  match cs with
  | c1 :: c2 :: c3 :: c4 :: c5 :: rest =>
    if c1.toLower == 't' && c2.toLower == 'i' && c3.toLower == 'm' &&
        c4.toLower == 'e' && c5 == ':' then
      matchTimeMeridiemAt (rest.dropWhile Char.isWhitespace)
    else none
  | _ => none

/-- Pattern 3, the bare `(\d{1,2}:\d{2}\s*(?:am|pm|a\.m\.|p\.m\.))`. -/
def matchPat3At (cs : List Char) : Option (List Char) :=
  matchTimeMeridiemAt cs

/-- Pattern 4, `~(\d{1,2}:\d{2})`. -/
def matchPat4At (cs : List Char) : Option (List Char) :=
  match cs with
  | '~' :: rest =>
    match matchHHMMAt rest with
    | some pr => some pr.1
    | none => none
  | _ => none

/-- Pattern 5, `approx\.\s*(\d{1,2}:\d{2})` (case-insensitive). -/
def matchPat5At (cs : List Char) : Option (List Char) :=
  match cs with
  | c1 :: c2 :: c3 :: c4 :: c5 :: c6 :: c7 :: rest =>
    if c1.toLower == 'a' && c2.toLower == 'p' && c3.toLower == 'p' &&
        c4.toLower == 'r' && c5.toLower == 'o' && c6.toLower == 'x' && c7 == '.' then
      match matchHHMMAt (rest.dropWhile Char.isWhitespace) with
      | some pr => some pr.1
      | none => none
    else none
  | _ => none

/-- Leftmost-match search: try the position matcher at every start position,
earliest first (the discipline of `String.prototype.match`; none of the five
patterns can match the empty string, so the empty-suffix position is moot). -/
def scanFirst (f : List Char → Option (List Char)) : List Char → Option (List Char)
  | [] => none
  | c :: rest =>
    match f (c :: rest) with
    | some r => some r
    | none => scanFirst f rest

/-- `description.match(patterns[0])?.[1]` for pattern 1. -/
def searchPat1 (d : String) : Option String :=
  (scanFirst matchPat1At d.data).map String.mk

/-- `description.match(patterns[1])?.[1]` for pattern 2. -/
def searchPat2 (d : String) : Option String :=
  (scanFirst matchPat2At d.data).map String.mk

/-- `description.match(patterns[2])?.[1]` for pattern 3. -/
def searchPat3 (d : String) : Option String :=
  (scanFirst matchPat3At d.data).map String.mk

/-- `description.match(patterns[3])?.[1]` for pattern 4. -/
def searchPat4 (d : String) : Option String :=
  (scanFirst matchPat4At d.data).map String.mk

/-- `description.match(patterns[4])?.[1]` for pattern 5. -/
def searchPat5 (d : String) : Option String :=
  (scanFirst matchPat5At d.data).map String.mk

/-- `extractTimeFromDescription(description)` (lines 49-70): the `for` loop
over the `patterns` array returns `match[1]` of the first pattern that
matches; `if (!description) return null` rejects the empty string. -/
def extractTimeFromDescription (description : String) : Option String :=
  if description = "" then none
  else
    match searchPat1 description with
    | some r => some r
    | none =>
      match searchPat2 description with
      | some r => some r
      | none =>
        match searchPat3 description with
        | some r => some r
        | none =>
          match searchPat4 description with
          | some r => some r
          | none =>
            match searchPat5 description with
            | some r => some r
            | none => none

/-! ## Coordinate parsing (src/KmlLoader.js lines 11-18) -/

/-- JavaScript `parseFloat` restricted to plain decimal literals (an optional
sign, digits, an optional fraction), which is all the KML coordinate tuples
contain; `none` models `NaN`. Exponent forms are not modelled. -/
def parseFloatQ (s : String) : Option ℚ :=
  let cs := s.data.dropWhile Char.isWhitespace
  let sr : Int × List Char :=
    match cs with
    | '-' :: r => (-1, r)
    | '+' :: r => (1, r)
    | _ => (1, cs)
  let d1 := sr.2.takeWhile Char.isDigit
  let rest1 := sr.2.dropWhile Char.isDigit
  let fr : List Char :=
    match rest1 with
    | '.' :: r2 => r2.takeWhile Char.isDigit
    | _ => []
  if d1.isEmpty ∧ fr.isEmpty then none
  else some ((sr.1 : ℚ) * ((digitsToNat d1 : ℚ) + (digitsToNat fr : ℚ) / ((10 : ℚ) ^ fr.length)))

/-- One parsed coordinate tuple; `none` components model `NaN` (JavaScript
`parseFloat` of a missing or unparsable piece). -/
structure Coord where
  lng : Option ℚ
  lat : Option ℚ
  alt : Option ℚ
deriving DecidableEq

/-- `parseCoordinates(coordString)` (lines 11-18): trim, split on commas,
`lng`/`lat` from pieces 0 and 1, `alt` from piece 2 when present and nonempty
(the truthiness test `coords[2] ?`), else `0`. -/
def parseCoordinates (coordString : String) : Coord :=
  let coords := coordString.trim.splitOn (",")
  { lng := parseFloatQ (coords.getD 0 "")
    lat := parseFloatQ (coords.getD 1 "")
    alt :=
      match coords.get? 2 with
      | some a => if a = "" then some 0 else parseFloatQ a
      | none => some 0 }

/-- `coordsText.trim().split(/\s+/).filter(c => c.length > 0).map(parseCoordinates)`
(lines 127-129 and 148-150). -/
def parseCoordList (coordsText : String) : List Coord :=
  ((coordsText.trim.split Char.isWhitespace).filter (fun c => c.length > 0)).map
    parseCoordinates

/-! ## The KML document model and parseKmlLocations (lines 73-165)

A placemark is modelled by the pieces of the DOM the loader reads: the text of
the first `name`, `description` and `styleUrl` children (absent elements are
`none`), and the placemark geometry elements in document order, each carrying
the text of its first `coordinates` child when present.
`getElementsByTagName` returns the elements of one tag in document order,
which the model renders as `List.filter` over the interleaved list. -/

/-- The three geometry tags read by the loader. -/
inductive GeomKind
  | point
  | line
  | polygon
deriving DecidableEq

/-- A geometry element and the text of its first `coordinates` child. -/
structure GeomElem where
  kind : GeomKind
  coordText : Option String
deriving DecidableEq

/-- A `Placemark` element as seen by the loader. -/
structure Placemark where
  nameText : Option String
  descText : Option String
  styleText : Option String
  geoms : List GeomElem
deriving DecidableEq

/-- `nameElement ? nameElement.textContent : 'Unknown'` (line 88). -/
def pmName (p : Placemark) : String :=
  match p.nameText with
  | some n => n
  | none => "Unknown"

/-- `descElement ? descElement.textContent : ''` (line 92). -/
def pmDescription (p : Placemark) : String :=
  match p.descText with
  | some d => d
  | none => ""

/-- `styleElement ? styleElement.textContent : ''` (line 96). -/
def pmStyle (p : Placemark) : String :=
  match p.styleText with
  | some s => s
  | none => ""

/-- `placemark.getElementsByTagName(tag)` for a geometry tag: the geometry
elements of that kind in document order. -/
def geomsOfKind (p : Placemark) (k : GeomKind) : List GeomElem :=
  p.geoms.filter (fun g => g.kind == k)

/-- One parsed location record (the discriminated union over
`point`/`line`/`polygon` that the loader pushes onto `locations`). The
`line` and `polygon` variants carry `timestamp: null` in the source, absorbed
here into the variant. -/
inductive Location
  | point (name description : String) (coords : Coord) (timestamp : Option DateTime)
      (timeStr : Option String) (style : String)
  | line (name description : String) (coords : List Coord) (style : String)
  | polygon (name description : String) (coords : List Coord) (style : String)
deriving DecidableEq

/-- The `name` field of any record variant. -/
def Location.locName : Location → String
  | .point n _ _ _ _ _ => n
  | .line n _ _ _ => n
  | .polygon n _ _ _ => n

/-- The `description` field of any record variant. -/
def Location.locDescription : Location → String
  | .point _ d _ _ _ _ => d
  | .line _ d _ _ => d
  | .polygon _ d _ _ => d

/-- The `style` field of any record variant. -/
def Location.locStyle : Location → String
  | .point _ _ _ _ _ s => s
  | .line _ _ _ s => s
  | .polygon _ _ _ s => s

/-- The `Point` block of the placemark loop (lines 99-119): only the FIRST
`Point` element (`[0]` indexing) is considered, and it is skipped when it has
no `coordinates` child; the timestamp is extracted from the description. -/
def pointRecords (p : Placemark) : List Location :=
  match (geomsOfKind p GeomKind.point).head? with
  | some g =>
    match g.coordText with
    | some ctext =>
      let coords := parseCoordinates ctext
      let timeStr := extractTimeFromDescription (pmDescription p)
      let timestamp := parseTimeOnDate timeStr BASE_DATE
      [Location.point (pmName p) (pmDescription p) coords timestamp timeStr (pmStyle p)]
    | none => []
  | none => []

/-- The `LineString` block (lines 122-140): one record per `LineString`
element with a `coordinates` child, in document order. -/
def lineRecords (p : Placemark) : List Location :=
  (geomsOfKind p GeomKind.line).filterMap (fun g =>
    g.coordText.map (fun ctext =>
      Location.line (pmName p) (pmDescription p) (parseCoordList ctext) (pmStyle p)))

/-- The `Polygon` block (lines 143-161): one record per `Polygon` element
with a `coordinates` child, in document order. -/
def polyRecords (p : Placemark) : List Location :=
  (geomsOfKind p GeomKind.polygon).filterMap (fun g =>
    g.coordText.map (fun ctext =>
      Location.polygon (pmName p) (pmDescription p) (parseCoordList ctext) (pmStyle p)))

/-- The records pushed for one placemark by the loop body (lines 84-161):
the first-`Point` record, then the `LineString` records, then the `Polygon`
records. -/
def placemarkRecords (p : Placemark) : List Location :=
  pointRecords p ++ lineRecords p ++ polyRecords p

/-- The accumulation loop of `parseKmlLocations` (lines 80-162): a `locations`
array receiving `push` calls, one placemark after the other. -/
def parseKmlDocLocations (placemarks : List Placemark) : List Location :=
  placemarks.foldl (fun locations p => locations ++ placemarkRecords p) []

/-- An input to `parseKmlLocations`: whether the `fetch` resolves, whether the
fetched text is well-formed markup, and the placemarks of the document when it
is. -/
structure KmlFetch where
  fetchOk : Bool
  wellFormed : Bool
  doc : List Placemark
deriving DecidableEq

/-- Model of the external `DOMParser.parseFromString(kmlText, 'text/xml')`
(line 78): it never throws; for malformed markup it returns an error document
(root `parsererror`) that contains no `Placemark` elements, so
`getElementsByTagName('Placemark')` on it is empty. -/
def domParseFromString (input : KmlFetch) : List Placemark :=
  if input.wellFormed then input.doc else []

/-- `parseKmlLocations(kmlUrl)` (lines 73-165) as an `Except`: the only error
exit of the `async` function is a rejected `fetch`; the markup-parsing step
never produces an error value. -/
def parseKmlLocations (input : KmlFetch) : Except String (List Location) :=
  if input.fetchOk then Except.ok (parseKmlDocLocations (domParseFromString input))
  else Except.error ("fetch failed")

/-- `String.prototype.includes` on strings. -/
def stringIncludes (s pat : String) : Bool :=
  includesCs s.data pat.data

/-- A `[coord.lat, coord.lng]` pair as pushed by `_extractGpsTrail`. -/
abbrev LatLng := Option ℚ × Option ℚ

/-- `_extractGpsTrail` (lines 244-254): concatenate, in document order, the
coordinates of every line record whose name contains `GPS TRAIL`. -/
def extractGpsTrail (locations : List Location) : List LatLng :=
  locations.foldl
    (fun acc loc =>
      match loc with
      | Location.line name _ coords _ =>
        if stringIncludes name ("GPS TRAIL") then
          acc ++ coords.map (fun c => (c.lat, c.lng))
        else acc
      | _ => acc)
    []

/-! ## The animated layer (lines 219-465) -/

/-- The current-event scan of `_updateAnimatedElements` (lines 388-395):
`for (i...) if (events[i].timestamp <= currentTime) idx = i; else break;`
with `i` the position of the list head and `idx` the accumulator. -/
def currentEventLoop : List Int → Int → Nat → Nat → Nat
  | [], _, _, idx => idx
  | τ :: rest, t, i, idx =>
    if τ ≤ t then currentEventLoop rest t (i + 1) i else idx

/-- `currentEventIndex` after the scan, starting from `let currentEventIndex = 0`. -/
def currentEventIndex (eventTimes : List Int) (currentTime : Int) : Nat :=
  currentEventLoop eventTimes currentTime 0 0

/-- One entry of the timeline table (lines 169-216), with its derived
timestamp. -/
structure TimelineEvent where
  time : String
  label : String
  lat : ℚ
  lng : ℚ
  phone : String
  timestamp : DateTime
deriving DecidableEq

/-- `getPhoneColor` (lines 400-409). -/
def getPhoneColor (phone : String) : String :=
  if phone = "holly" then "#e91e63"
  else if phone = "adams" then "#2196f3"
  else if phone = "evidence" then "#4caf50"
  else if phone = "event" then "#ff5722"
  else if phone = "timeline" then "#9e9e9e"
  else "#ff0000"

/-- Two-digit minute field of `toLocaleTimeString`. -/
def pad2 (n : Nat) : String :=
  if n < 10 then "0" ++ toString n else toString n

/-- `timestamp.toLocaleTimeString('en-US', {hour:'numeric', minute:'2-digit',
hour12:true})` (lines 433-437). -/
def formatTime12 (d : DateTime) : String :=
  let h := d.minute / 60
  let m := d.minute % 60
  let h12 := if h % 12 = 0 then 12 else h % 12
  toString h12 ++ ":" ++ pad2 m ++ (if h < 12 then " AM" else " PM")

/-- The marker added for the current event (lines 412-441), keeping the data
the renderer receives: position, phone color (which also determines the icon
markup) and popup text. -/
structure AnimatedMarker where
  lat : ℚ
  lng : ℚ
  color : String
  popup : String
deriving DecidableEq

/-- Build the current-event marker. -/
def eventMarker (e : TimelineEvent) : AnimatedMarker :=
  { lat := e.lat
    lng := e.lng
    color := getPhoneColor e.phone
    popup := "<b>" ++ e.label ++ "</b><br>Time: " ++ formatTime12 e.timestamp }

/-- `pointsToShow = Math.max(1, Math.floor(len * progress))` with
`progress = (currentTime - startTime) / (endTime - startTime)` (lines 448-450),
for a nondegenerate time range. -/
def trailRevealCount (trailLen : Nat) (startTime endTime t : Int) : Int :=
  max 1 (Int.floor ((trailLen : ℚ) *
    (((t - startTime : Int) : ℚ) / ((endTime - startTime : Int) : ℚ))))

/-- `visibleCoords = coords.slice(0, pointsToShow)` (line 451), including the
degenerate `endTime === startTime` range, where JavaScript produces `NaN`
(`t = startTime`: `slice(0, NaN)` is empty), `+Infinity` (`t > startTime`:
the whole array) or `-Infinity` (`t < startTime`: `max(1, -Infinity) = 1`).
Only called with a nonempty coordinate list (the line 444 guard). -/
def trailVisible (coords : List LatLng) (startTime endTime t : Int) : List LatLng :=
  if endTime = startTime then
    if t = startTime then []
    else if startTime < t then coords
    else coords.take 1
  else coords.take (trailRevealCount coords.length startTime endTime t).toNat

/-- The GPS-trail block of `_updateAnimatedElements` (lines 443-461): the list
of polylines placed in `_gpsTrailLayer` after the update. `startTime` and
`endTime` are `_availableTimes[0]` and its last entry; with no available times
the `undefined` arithmetic yields `NaN` and an empty slice, so nothing is
drawn; a polyline is added only when more than one point is visible. -/
def updateGpsTrailLayer (gpsTrailCoords : List LatLng) (availableTimes : List Int)
    (t : Int) : List (List LatLng) :=
  if gpsTrailCoords.length > 0 then
    match availableTimes with
    | [] => []
    | t0 :: rest =>
      let endTime := (t0 :: rest).getLast (List.cons_ne_nil t0 rest)
      let visibleCoords := trailVisible gpsTrailCoords t0 endTime t
      if visibleCoords.length > 1 then [visibleCoords] else []
  else []

/-- The mutable layer state owned by the `L.TimeDimension.Layer.KmlLocations`
instance: the immutable inputs (`_timelineEvents`, `_gpsTrailCoords`,
`_availableTimes`) and the two animated layer groups that
`_updateAnimatedElements` clears and repopulates. -/
structure LayerState where
  timelineEvents : List TimelineEvent
  gpsTrailCoords : List LatLng
  availableTimes : List Int
  animatedMarkers : List AnimatedMarker
  gpsTrailLayer : List (List LatLng)
deriving DecidableEq

/-- `_updateAnimatedElements(currentTime)` (lines 380-464): clear both animated
layer groups (lines 383-385), select the current event and add its marker
(the `if (currentEvent)` guard fails only for an empty event list, where
indexing yields `undefined`), and redraw the GPS-trail polyline. -/
def updateAnimatedElements (t : Int) (s : LayerState) : LayerState :=
  let idx := currentEventIndex (s.timelineEvents.map (fun e => e.timestamp.getTime)) t
  let markers :=
    match s.timelineEvents.get? idx with
    | some e => [eventMarker e]
    | none => []
  { s with
    animatedMarkers := markers
    gpsTrailLayer := updateGpsTrailLayer s.gpsTrailCoords s.availableTimes t }

/-! ## Helper lemmas about the current-event scan -/

theorem currentEventLoop_eq_takeWhile (t : Int) :
    ∀ (l : List Int) (i idx : Nat),
      currentEventLoop l t i idx =
        if (l.takeWhile (fun τ => decide (τ ≤ t))).length = 0 then idx
        else i + (l.takeWhile (fun τ => decide (τ ≤ t))).length - 1 := by
  intro l
  induction l with
  | nil => intro i idx; simp [currentEventLoop]
  | cons a l ih =>
    intro i idx
    by_cases ha : a ≤ t
    · rw [show currentEventLoop (a :: l) t i idx = currentEventLoop l t (i + 1) i from
        by simp [currentEventLoop, ha]]
      rw [ih]
      have htw : List.takeWhile (fun τ => decide (τ ≤ t)) (a :: l) =
          a :: List.takeWhile (fun τ => decide (τ ≤ t)) l := by
        simp [List.takeWhile_cons, ha]
      rw [htw]
      simp only [List.length_cons]
      rw [if_neg (by omega : ¬((List.takeWhile (fun τ => decide (τ ≤ t)) l).length + 1 = 0))]
      rcases Nat.eq_zero_or_pos (List.takeWhile (fun τ => decide (τ ≤ t)) l).length with h0 | h0
      · rw [if_pos h0]; omega
      · rw [if_neg (by omega)]; omega
    · rw [show currentEventLoop (a :: l) t i idx = idx from by simp [currentEventLoop, ha]]
      have htw : List.takeWhile (fun τ => decide (τ ≤ t)) (a :: l) = [] := by
        simp [List.takeWhile_cons, ha]
      rw [htw]
      simp

theorem currentEventIndex_eq_takeWhile (ts : List Int) (t : Int) :
    currentEventIndex ts t = (ts.takeWhile (fun τ => decide (τ ≤ t))).length - 1 := by
  unfold currentEventIndex
  rw [currentEventLoop_eq_takeWhile]
  split <;> omega

theorem length_takeWhile_eq_of (p : Int → Bool) :
    ∀ (l : List Int) (n : Nat), n ≤ l.length →
      (∀ j, j < n → p (l.getD j 0) = true) →
      (n < l.length → p (l.getD n 0) = false) →
      (l.takeWhile p).length = n := by
  intro l
  induction l with
  | nil =>
    intro n h1 _ _
    simp only [List.length_nil, Nat.le_zero] at h1
    simp [h1]
  | cons a l ih =>
    intro n hn hall hstop
    cases n with
    | zero =>
      have h0 : p a = false := by simpa using hstop (by simp)
      simp [List.takeWhile_cons, h0]
    | succ m =>
      have ha : p a = true := by simpa using hall 0 (Nat.succ_pos m)
      have hrec : (l.takeWhile p).length = m :=
        ih m (by simpa using hn)
          (fun j hj => by simpa using hall (j + 1) (by omega))
          (fun h => by simpa using hstop (by simpa using h))
      simp [List.takeWhile_cons, ha, hrec]

theorem getD_lt_getD_of_pairwise (ts : List Int) (hs : List.Pairwise (· < ·) ts)
    {i j : Nat} (hij : i < j) (hj : j < ts.length) :
    ts.getD i 0 < ts.getD j 0 := by
  have hi : i < ts.length := lt_trans hij hj
  rw [List.getD_eq_getElem ts 0 hi, List.getD_eq_getElem ts 0 hj]
  exact List.pairwise_iff_getElem.mp hs i j hi hj hij

/-- C1: for a strictly sorted, non-empty event timestamp list, the
current-event scan of `_updateAnimatedElements` picks the last event whose
timestamp is at most the current time: for `Ti ≤ t < Ti+1` it selects index
`i`, for `t` before every timestamp it selects index `0`, and for `t` at or
after the last timestamp it selects the last index. -/
theorem current_event_selection (ts : List Int) (t : Int)
    (hs : List.Pairwise (· < ·) ts) (hne : ts ≠ []) :
    (t < ts.getD 0 0 → currentEventIndex ts t = 0) ∧
    (∀ i, i + 1 < ts.length → ts.getD i 0 ≤ t → t < ts.getD (i + 1) 0 →
      currentEventIndex ts t = i) ∧
    (ts.getD (ts.length - 1) 0 ≤ t → currentEventIndex ts t = ts.length - 1) := by
  have hlen : 0 < ts.length := List.length_pos.mpr hne
  refine ⟨?_, ?_, ?_⟩
  · intro h0
    have hk : (ts.takeWhile (fun τ => decide (τ ≤ t))).length = 0 := by
      apply length_takeWhile_eq_of _ _ _ (Nat.zero_le _)
      · intro j hj; omega
      · intro _
        simp only [decide_eq_false_iff_not, not_le]
        exact h0
    rw [currentEventIndex_eq_takeWhile, hk]
  · intro i hi hle hlt
    have hk : (ts.takeWhile (fun τ => decide (τ ≤ t))).length = i + 1 := by
      apply length_takeWhile_eq_of
      · omega
      · intro j hj
        have hjle : ts.getD j 0 ≤ t := by
          rcases Nat.lt_or_ge j i with hj' | hj'
          · exact le_of_lt (lt_of_lt_of_le
              (getD_lt_getD_of_pairwise ts hs hj' (by omega)) hle)
          · have : j = i := by omega
            rw [this]; exact hle
        simpa using hjle
      · intro _
        simp only [decide_eq_false_iff_not, not_le]
        exact hlt
    rw [currentEventIndex_eq_takeWhile, hk]
    omega
  · intro hlast
    have hk : (ts.takeWhile (fun τ => decide (τ ≤ t))).length = ts.length := by
      apply length_takeWhile_eq_of _ _ _ (le_refl _)
      · intro j hj
        have hjle : ts.getD j 0 ≤ t := by
          rcases Nat.lt_or_ge j (ts.length - 1) with hj' | hj'
          · exact le_of_lt (lt_of_lt_of_le
              (getD_lt_getD_of_pairwise ts hs hj' (by omega)) hlast)
          · have : j = ts.length - 1 := by omega
            rw [this]; exact hlast
        simpa using hjle
      · intro h; omega
    rw [currentEventIndex_eq_takeWhile, hk]

/-- Witness for C1 at a concrete sorted event list: with timestamps 360, 465
and 480 and current time 470, the event at 465 (index 1) is selected. -/
theorem current_event_selection_witness :
    currentEventIndex [360, 465, 480] 470 = 1 :=
  (current_event_selection [360, 465, 480] 470 (by decide) (by decide)).2.1 1
    (by decide) (by decide) (by decide)

/-! ## C5: idempotence of the animated update -/

/-- C5: `_updateAnimatedElements` clears the previously emitted animated
layers before drawing (it never reads them), so running it twice at the same
time yields the same emitted overlay state as running it once, and its result
does not depend on whatever animated overlays were present before the call —
no overlays accumulate. -/
theorem update_idempotent_no_accumulation :
    (∀ (t : Int) (s : LayerState),
      updateAnimatedElements t (updateAnimatedElements t s) = updateAnimatedElements t s) ∧
    (∀ (t : Int) (s : LayerState) (m : List AnimatedMarker) (g : List (List LatLng)),
      updateAnimatedElements t { s with animatedMarkers := m, gpsTrailLayer := g } =
        updateAnimatedElements t s) := by
  constructor
  · intro t s; rfl
  · intro t s m g; rfl

/-! ## C2, C6, C9: the trail-reveal computation -/

/-- C2: for a non-empty trail and a nondegenerate event range, the trail block
of `_updateAnimatedElements` computes the unclamped progress
`(t - firstTime) / (lastTime - firstTime)`, reveals the prefix of length
`max(1, floor(trailLength * progress))`, and draws no polyline when the
revealed prefix has at most one point; the progress is negative before the
first event time and exceeds 1 after the last one. The right-hand side of the
first conjunct is written from the words of the specification. -/
theorem trail_reveal_formula (coords : List LatLng) (times : List Int) (t t0 tN : Int)
    (h0 : times.head? = some t0) (hN : times.getLast? = some tN)
    (hrange : t0 < tN) (hc : coords ≠ []) :
    (updateGpsTrailLayer coords times t =
      (let progress : ℚ := ((t : ℚ) - (t0 : ℚ)) / ((tN : ℚ) - (t0 : ℚ))
       let revealed := coords.take (max 1 (Int.floor ((coords.length : ℚ) * progress))).toNat
       if revealed.length ≤ 1 then [] else [revealed])) ∧
    (t < t0 → ((t : ℚ) - (t0 : ℚ)) / ((tN : ℚ) - (t0 : ℚ)) < 0) ∧
    (tN < t → 1 < ((t : ℚ) - (t0 : ℚ)) / ((tN : ℚ) - (t0 : ℚ))) := by
  obtain ⟨a, rest, rfl⟩ : ∃ a rest, times = a :: rest := by
    cases times with
    | nil => simp at h0
    | cons a rest => exact ⟨a, rest, rfl⟩
  have ha : a = t0 := by simpa using h0
  subst ha
  have hlast : (a :: rest).getLast (List.cons_ne_nil a rest) = tN := by
    have := List.getLast?_eq_getLast (a :: rest) (List.cons_ne_nil a rest)
    rw [this] at hN
    exact Option.some_injective _ hN
  have hdpos : (0 : ℚ) < (tN : ℚ) - (a : ℚ) := by
    have : (0 : ℚ) < ((tN - a : Int) : ℚ) := by
      exact_mod_cast (by omega : (0 : Int) < tN - a)
    push_cast at this
    linarith
  refine ⟨?_, ?_, ?_⟩
  · unfold updateGpsTrailLayer
    rw [if_pos (List.length_pos.mpr hc)]
    simp only [hlast]
    unfold trailVisible
    rw [if_neg (by omega : ¬ tN = a)]
    have hcast : (((t - a : Int) : ℚ) / ((tN - a : Int) : ℚ)) =
        ((t : ℚ) - (a : ℚ)) / ((tN : ℚ) - (a : ℚ)) := by push_cast; ring_nf
    unfold trailRevealCount
    rw [hcast]
    rcases Nat.lt_or_ge 1
      (coords.take (max 1 (Int.floor ((coords.length : ℚ) *
        (((t : ℚ) - (a : ℚ)) / ((tN : ℚ) - (a : ℚ)))))).toNat).length with hgt | hle
    · rw [if_pos hgt, if_neg (by omega)]
    · rw [if_neg (by omega), if_pos (by omega)]
  · intro hbefore
    apply div_neg_of_neg_of_pos _ hdpos
    have : ((t : ℚ) < (a : ℚ)) := by exact_mod_cast hbefore
    linarith
  · intro hafter
    rw [one_lt_div hdpos]
    have : ((tN : ℚ) < (t : ℚ)) := by exact_mod_cast hafter
    linarith

/-- Witness for C2: a two-point trail over the event range 0..10 at time 10
reveals both points and draws the full polyline. -/
theorem trail_reveal_formula_witness :
    updateGpsTrailLayer ([(some 1, some 1), (some 2, some 2)]) ([0, 10]) 10 =
      [[(some 1, some 1), (some 2, some 2)]] := by
  rw [(trail_reveal_formula [(some 1, some 1), (some 2, some 2)] [0, 10] 10 0 10
    (by decide) (by decide) (by decide) (by decide)).1]
  norm_num [List.take]

/-- C6: the reveal count `max(1, floor(trailLength * progress))` is
monotonically non-decreasing in the current time across the event range
(and in fact everywhere, given a nondegenerate range). -/
theorem trail_reveal_monotone (coords : List LatLng) (startTime endTime t1 t2 : Int)
    (hc : coords ≠ []) (hrange : startTime < endTime)
    (hlo : startTime ≤ t1) (h12 : t1 ≤ t2) (hhi : t2 ≤ endTime) :
    trailRevealCount coords.length startTime endTime t1 ≤
      trailRevealCount coords.length startTime endTime t2 := by
  unfold trailRevealCount
  apply max_le_max (le_refl (1 : Int))
  apply Int.floor_le_floor
  have hd : (0 : ℚ) < ((endTime - startTime : Int) : ℚ) := by
    exact_mod_cast (by omega : (0 : Int) < endTime - startTime)
  have hnum : ((t1 - startTime : Int) : ℚ) ≤ ((t2 - startTime : Int) : ℚ) := by
    exact_mod_cast (by omega : t1 - startTime ≤ t2 - startTime)
  have hlen : (0 : ℚ) ≤ (coords.length : ℚ) := by positivity
  apply mul_le_mul_of_nonneg_left _ hlen
  exact div_le_div_of_nonneg_right hnum hd.le

/-- Witness for C6 at a concrete three-point trail and times 3 and 6 inside
the range 0..10. -/
theorem trail_reveal_monotone_witness :
    trailRevealCount ([(some 1, some 1), (some 2, some 2), (some 3, some 3)] : List LatLng).length 0 10 3 ≤
      trailRevealCount ([(some 1, some 1), (some 2, some 2), (some 3, some 3)] : List LatLng).length 0 10 6 :=
  trail_reveal_monotone [(some 1, some 1), (some 2, some 2), (some 3, some 3)] 0 10 3 6
    (by decide) (by decide) (by decide) (by decide) (by decide)

/-- C9: for a non-empty trail and a nondegenerate event range, the coordinate
list handed to the renderer is always a genuine prefix of the trail with at
least one and at most `trailLength` points, for every current time, including
times whose unclamped progress is negative or exceeds 1. -/
theorem trail_visible_safe (coords : List LatLng) (startTime endTime t : Int)
    (hc : coords ≠ []) (hrange : startTime < endTime) :
    1 ≤ (trailVisible coords startTime endTime t).length ∧
    (trailVisible coords startTime endTime t).length ≤ coords.length ∧
    ∃ k, trailVisible coords startTime endTime t = coords.take k := by
  unfold trailVisible
  rw [if_neg (by omega : ¬ endTime = startTime)]
  refine ⟨?_, ?_, ⟨_, rfl⟩⟩
  · rw [List.length_take]
    have h1 : (1 : Int) ≤ trailRevealCount coords.length startTime endTime t :=
      le_max_left _ _
    have h1n : 1 ≤ (trailRevealCount coords.length startTime endTime t).toNat := by omega
    exact le_min h1n (List.length_pos.mpr hc)
  · rw [List.length_take]
    exact min_le_right _ _

/-- Witness for C9 at a time far before the range (progress is negative):
exactly one point is revealed, a prefix of the two-point trail. -/
theorem trail_visible_safe_witness :
    1 ≤ (trailVisible ([(some 1, some 1), (some 2, some 2)]) 0 10 (-50)).length ∧
    (trailVisible ([(some 1, some 1), (some 2, some 2)]) 0 10 (-50)).length ≤
      ([(some 1, some 1), (some 2, some 2)] : List LatLng).length ∧
    ∃ k, trailVisible ([(some 1, some 1), (some 2, some 2)]) 0 10 (-50) =
      ([(some 1, some 1), (some 2, some 2)] : List LatLng).take k :=
  trail_visible_safe [(some 1, some 1), (some 2, some 2)] 0 10 (-50)
    (by decide) (by decide)

/-! ## C7, C10: time-string parsing -/

/-- C7: `parseTimeOnDate` is insensitive to case and to spacing before the
meridiem (the strings `9:02am` and `9:02 AM` parse to the identical absolute
timestamp), converts 12-hour times with the standard noon/midnight rules
(hour 12 with `pm` stays 12, hour 12 with `am` becomes 0), and resolves every
12-hour clock time (hour at most 12, minutes at most 59) onto the one fixed
calendar date of `BASE_DATE`. -/
theorem time_parsing_normalization :
    (parseTimeOnDate (some ("9:02am")) BASE_DATE = parseTimeOnDate (some ("9:02 AM")) BASE_DATE) ∧
    (parseTimeOnDate (some ("9:02am")) BASE_DATE = some { day := baseDay, minute := 542 }) ∧
    (parseTimeOnDate (some ("12:00pm")) BASE_DATE = some { day := baseDay, minute := 720 }) ∧
    (parseTimeOnDate (some ("12:00am")) BASE_DATE = some { day := baseDay, minute := 0 }) ∧
    (convertTo24 12 (['p', 'm']) = 12) ∧
    (convertTo24 12 (['a', 'm']) = 0) ∧
    (∀ (h m : Nat) (per : List Char), h ≤ 12 → m ≤ 59 →
      (setHours BASE_DATE (convertTo24 h per) m).day = baseDay) := by
  refine ⟨by decide, by decide, by decide, by decide, by decide, by decide, ?_⟩
  intro h m per hh hm
  have hconv : convertTo24 h per ≤ 23 := by
    unfold convertTo24
    split_ifs with h1 h2
    · obtain ⟨-, h12⟩ := h1
      omega
    · omega
    · omega
  have hz : (convertTo24 h per * 60 + m) / 1440 = 0 := Nat.div_eq_of_lt (by omega)
  simp [setHours, BASE_DATE, hz]

/-- Witness for C7 at hour 9, minute 2, meridiem `am`: the resulting date is
the fixed calendar date. -/
theorem time_parsing_normalization_witness :
    (setHours BASE_DATE (convertTo24 9 (['a', 'm'])) 2).day = baseDay :=
  time_parsing_normalization.2.2.2.2.2.2 9 2 ['a', 'm'] (by decide) (by decide)

/-- C10: when the matched time string carries no meridiem (as the approximate
patterns `~HH:MM` and `approx. HH:MM` guarantee, since they capture no
meridiem), `parseTimeOnDate` defaults the period to `am`, leaving an hour
below 12 unchanged, so such times resolve to morning hours (before noon) on
the fixed date; in particular `~7:45` is extracted as `7:45` and parses to
07:45 on the fixed date. -/
theorem missing_meridiem_defaults_am :
    (extractTimeFromDescription ("seen ~7:45 leaving") = some ("7:45")) ∧
    (extractTimeFromDescription ("approx. 9:25 on the road") = some ("9:25")) ∧
    (parseTimeOnDate (some ("7:45")) BASE_DATE = some { day := baseDay, minute := 465 }) ∧
    (∀ (s : String) (mt : TimeMatchR), s ≠ "" →
      findTimeMatch (trimCs (s.data.map Char.toLower)) = some mt →
      mt.period = none →
      parseTimeOnDate (some s) BASE_DATE =
        some (setHours BASE_DATE
          (convertTo24 (digitsToNat mt.hoursDigits) (['a', 'm']))
          (match mt.minutesDigits with
           | some ds => digitsToNat ds
           | none => 0))) ∧
    (∀ h : Nat, h ≤ 11 → convertTo24 h (['a', 'm']) = h) ∧
    (∀ h m : Nat, h ≤ 11 → m ≤ 59 →
      (setHours BASE_DATE (convertTo24 h (['a', 'm'])) m).minute < 720 ∧
      (setHours BASE_DATE (convertTo24 h (['a', 'm'])) m).day = baseDay) := by
  refine ⟨by decide, by decide, by decide, ?_, ?_, ?_⟩
  · intro s mt hs hfind hper
    simp only [parseTimeOnDate, if_neg hs, hfind, hper]
  · intro h hh
    unfold convertTo24
    split_ifs with h1 h2
    · exact absurd h1.1 (by decide)
    · omega
    · rfl
  · intro h m hh hm
    have hc : convertTo24 h (['a', 'm']) = h := by
      unfold convertTo24
      split_ifs with h1 h2
      · exact absurd h1.1 (by decide)
      · omega
      · rfl
    have hz : (h * 60 + m) / 1440 = 0 := Nat.div_eq_of_lt (by omega)
    have hmod : (h * 60 + m) % 1440 = h * 60 + m := Nat.mod_eq_of_lt (by omega)
    constructor
    · simp [setHours, BASE_DATE, hc, hmod]
      omega
    · simp [setHours, BASE_DATE, hc, hz]

/-- Witness for C10: `~7:45` has a meridiem-free match, so it parses with the
defaulted `am` period. -/
theorem missing_meridiem_defaults_am_witness :
    parseTimeOnDate (some ("~7:45")) BASE_DATE =
      some (setHours BASE_DATE (convertTo24 (digitsToNat (['7'])) (['a', 'm']))
        (digitsToNat (['4', '5']))) :=
  missing_meridiem_defaults_am.2.2.2.1 ("~7:45") ⟨['7'], some ['4', '5'], none⟩
    (by decide) (by decide) rfl

/-! ## C8: pattern priority of extractTimeFromDescription -/

/-- C8: `extractTimeFromDescription` tries the five textual time patterns in
the fixed order of the `patterns` array (explicit `at HH:MM am/pm`, then
`Time: HH:MM...`, then bare `HH:MM am/pm`, then `~HH:MM`, then
`approx. HH:MM`); the first pattern that matches determines the extracted
string, and when none matches the result is absent (the function is total,
no error is thrown). -/
theorem time_pattern_priority (d : String) :
    (∀ r, searchPat1 d = some r → extractTimeFromDescription d = some r) ∧
    (searchPat1 d = none → ∀ r, searchPat2 d = some r →
      extractTimeFromDescription d = some r) ∧
    (searchPat1 d = none → searchPat2 d = none → ∀ r, searchPat3 d = some r →
      extractTimeFromDescription d = some r) ∧
    (searchPat1 d = none → searchPat2 d = none → searchPat3 d = none →
      ∀ r, searchPat4 d = some r → extractTimeFromDescription d = some r) ∧
    (searchPat1 d = none → searchPat2 d = none → searchPat3 d = none →
      searchPat4 d = none → ∀ r, searchPat5 d = some r →
      extractTimeFromDescription d = some r) ∧
    (searchPat1 d = none → searchPat2 d = none → searchPat3 d = none →
      searchPat4 d = none → searchPat5 d = none →
      extractTimeFromDescription d = none) := by
  by_cases hd : d = ""
  · subst hd
    have e1 : searchPat1 ("") = none := by decide
    refine ⟨?_, ?_, ?_, ?_, ?_, ?_⟩
    · intro r h; rw [e1] at h; cases h
    · intro _ r h
      rw [show searchPat2 ("") = none from by decide] at h; cases h
    · intro _ _ r h
      rw [show searchPat3 ("") = none from by decide] at h; cases h
    · intro _ _ _ r h
      rw [show searchPat4 ("") = none from by decide] at h; cases h
    · intro _ _ _ _ r h
      rw [show searchPat5 ("") = none from by decide] at h; cases h
    · intros; rfl
  · unfold extractTimeFromDescription
    rw [if_neg hd]
    refine ⟨?_, ?_, ?_, ?_, ?_, ?_⟩
    · intro r h; rw [h]
    · intro h1 r h; rw [h1, h]
    · intro h1 h2 r h; rw [h1, h2, h]
    · intro h1 h2 h3 r h; rw [h1, h2, h3, h]
    · intro h1 h2 h3 h4 r h; rw [h1, h2, h3, h4, h]
    · intro h1 h2 h3 h4 h5; rw [h1, h2, h3, h4, h5]

/-- Witness for C8: a description matching the first pattern. -/
theorem time_pattern_priority_witness :
    extractTimeFromDescription ("Last seen at 7:45 am near the house") = some ("7:45 am") :=
  (time_pattern_priority ("Last seen at 7:45 am near the house")).1 ("7:45 am") (by decide)

/-! ## C3: behavior on malformed documents -/

/-- C3 counterexample: for a reachable but malformed document (here one whose
well-formed reading would contain a placemark with a point), extraction does
NOT fail with a parse error: `DOMParser` returns an error document with no
`Placemark` elements and `parseKmlLocations` resolves with the empty location
list, refuting the claim that extraction returns an error exactly when the
document is malformed. -/
theorem malformed_document_counterexample :
    parseKmlLocations
      { fetchOk := true
        wellFormed := false
        doc := [{ nameText := some ("Spot")
                  descText := none
                  styleText := none
                  geoms := [{ kind := GeomKind.point, coordText := some ("1,2") }] }] } =
      Except.ok [] := rfl

/-- C3 amended: extraction fails softly on malformed markup: whenever the
fetch succeeds but the document is not well-formed, `parseKmlLocations`
returns the empty location list rather than an error. -/
theorem malformed_document_soft_failure (input : KmlFetch)
    (hf : input.fetchOk = true) (hw : input.wellFormed = false) :
    parseKmlLocations input = Except.ok [] := by
  simp [parseKmlLocations, domParseFromString, parseKmlDocLocations, hf, hw]

/-- Witness for the amended C3 at a concrete malformed input. -/
theorem malformed_document_soft_failure_witness :
    parseKmlLocations { fetchOk := true, wellFormed := false, doc := [] } =
      Except.ok [] :=
  malformed_document_soft_failure { fetchOk := true, wellFormed := false, doc := [] }
    rfl rfl

/-! ## C4: records produced per placemark -/

/-- C4 counterexample: a placemark holding two `Point` geometry elements
(each with coordinates) yields a single record, not one record per geometry
element, because the loader reads only `getElementsByTagName('Point')[0]`. -/
theorem one_record_per_geometry_counterexample :
    (([{ kind := GeomKind.point, coordText := some ("1,2") },
       { kind := GeomKind.point, coordText := some ("3,4") }] : List GeomElem).length = 2) ∧
    ((parseKmlDocLocations
      [{ nameText := some ("A")
         descText := some ("")
         styleText := some ("#s")
         geoms := [{ kind := GeomKind.point, coordText := some ("1,2") },
                   { kind := GeomKind.point, coordText := some ("3,4") }] }]).length = 1) := by
  exact ⟨rfl, rfl⟩

theorem foldl_push_records (placemarks : List Placemark) :
    ∀ acc : List Location,
      placemarks.foldl (fun locations p => locations ++ placemarkRecords p) acc =
        acc ++ placemarks.flatMap placemarkRecords := by
  induction placemarks with
  | nil => intro acc; simp
  | cons p ps ih =>
    intro acc
    simp only [List.foldl_cons, List.flatMap_cons, ih, List.append_assoc]

theorem length_filterMap_coordText (mk : GeomElem → String → Location) :
    ∀ l : List GeomElem,
      (l.filterMap (fun g => (g.coordText).map (mk g))).length =
        l.countP (fun g => g.coordText.isSome) := by
  intro l
  induction l with
  | nil => rfl
  | cons g l ih =>
    cases hg : g.coordText with
    | none => simp [List.filterMap_cons, hg, List.countP_cons, ih]
    | some c => simp [List.filterMap_cons, hg, List.countP_cons, ih]

/-- C4 amended: extraction produces, per placemark, one record for the first
`Point` element when it has coordinates (further `Point` elements are
ignored), one record per `LineString` with coordinates and one per `Polygon`
with coordinates; the records are grouped per placemark in placemark order
with the point record first, then the line records in document order, then
the polygon records in document order; and all records of one placemark share
that placemark's name, description and style. -/
theorem records_per_placemark (doc : List Placemark) :
    (parseKmlDocLocations doc = doc.flatMap placemarkRecords) ∧
    (∀ p : Placemark, ∀ r ∈ placemarkRecords p,
      r.locName = pmName p ∧ r.locDescription = pmDescription p ∧
        r.locStyle = pmStyle p) ∧
    (∀ p : Placemark,
      (placemarkRecords p).length =
        (if (((geomsOfKind p GeomKind.point).head?).bind GeomElem.coordText).isSome
          then 1 else 0)
        + (geomsOfKind p GeomKind.line).countP (fun g => g.coordText.isSome)
        + (geomsOfKind p GeomKind.polygon).countP (fun g => g.coordText.isSome)) := by
  refine ⟨?_, ?_, ?_⟩
  · unfold parseKmlDocLocations
    rw [foldl_push_records doc []]
    simp
  · intro p r hr
    rw [placemarkRecords, List.append_assoc] at hr
    rcases List.mem_append.mp hr with h | h
    · cases hpt : (geomsOfKind p GeomKind.point).head? with
      | none => simp [pointRecords, hpt] at h
      | some g =>
        cases hct : g.coordText with
        | none => simp [pointRecords, hpt, hct] at h
        | some ctext =>
          simp only [pointRecords, hpt, hct, List.mem_singleton] at h
          subst h
          exact ⟨rfl, rfl, rfl⟩
    · rcases List.mem_append.mp h with h2 | h2
      · rw [lineRecords] at h2
        rcases List.mem_filterMap.mp h2 with ⟨g, -, hg⟩
        rcases Option.map_eq_some'.mp hg with ⟨ctext, -, hmk⟩
        subst hmk
        exact ⟨rfl, rfl, rfl⟩
      · rw [polyRecords] at h2
        rcases List.mem_filterMap.mp h2 with ⟨g, -, hg⟩
        rcases Option.map_eq_some'.mp hg with ⟨ctext, -, hmk⟩
        subst hmk
        exact ⟨rfl, rfl, rfl⟩
  · intro p
    rw [placemarkRecords, List.length_append, List.length_append]
    have hline : (lineRecords p).length =
        (geomsOfKind p GeomKind.line).countP (fun g => g.coordText.isSome) :=
      length_filterMap_coordText
        (fun _ ctext => Location.line (pmName p) (pmDescription p)
          (parseCoordList ctext) (pmStyle p)) _
    have hpoly : (polyRecords p).length =
        (geomsOfKind p GeomKind.polygon).countP (fun g => g.coordText.isSome) :=
      length_filterMap_coordText
        (fun _ ctext => Location.polygon (pmName p) (pmDescription p)
          (parseCoordList ctext) (pmStyle p)) _
    have hpoint : (pointRecords p).length =
        if (((geomsOfKind p GeomKind.point).head?).bind GeomElem.coordText).isSome
          then 1 else 0 := by
      cases hpt : (geomsOfKind p GeomKind.point).head? with
      | none => rw [pointRecords, hpt]; rfl
      | some g =>
        cases hct : g.coordText with
        | none => rw [pointRecords, hpt]; simp [hct]
        | some ctext => rw [pointRecords, hpt]; simp [hct]
    rw [hline, hpoly, hpoint]

/-- Witness for the amended C4: the single line record of a concrete
placemark shares the placemark's name, description and style. -/
theorem records_per_placemark_witness :
    (Location.line ("B") ("desc") (parseCoordList ("")) ("#st")).locName =
      pmName { nameText := some ("B"), descText := some ("desc"),
               styleText := some ("#st"),
               geoms := [{ kind := GeomKind.line, coordText := some ("") }] } ∧
    (Location.line ("B") ("desc") (parseCoordList ("")) ("#st")).locDescription =
      pmDescription { nameText := some ("B"), descText := some ("desc"),
                      styleText := some ("#st"),
                      geoms := [{ kind := GeomKind.line, coordText := some ("") }] } ∧
    (Location.line ("B") ("desc") (parseCoordList ("")) ("#st")).locStyle =
      pmStyle { nameText := some ("B"), descText := some ("desc"),
                styleText := some ("#st"),
                geoms := [{ kind := GeomKind.line, coordText := some ("") }] } :=
  (records_per_placemark []).2.1
    { nameText := some ("B"), descText := some ("desc"), styleText := some ("#st"),
      geoms := [{ kind := GeomKind.line, coordText := some ("") }] }
    (Location.line ("B") ("desc") (parseCoordList ("")) ("#st"))
    (by simp [placemarkRecords, pointRecords, lineRecords, polyRecords, geomsOfKind,
      pmName, pmDescription, pmStyle])

end TNvZAMap
